import Mathlib

/-!
Verification development for the Dworek live game-state core.

The definitions below are a shallow embedding of the server-side live
state logic: `Factory.js` (live factory: visibility/range/ping memory,
production ticks, conquer value, attack resolution), the live `Shop`
(range memory, pricing, scheduled ownership handover) and the
`ShopBuyOutHandler` socket handler.  JavaScript numbers that only ever
hold integers are embedded as `Int` (or `Nat` for times and counts);
the shop buy price, which is multiplied and then rounded, is embedded
as `ℚ` with `round` matching JavaScript's `Math.round` (both compute
`⌊x + 1/2⌋`).  Callback-style code is embedded as pure functions
returning result values; a code path that throws instead of calling
back is embedded as an explicit result constructor.
-/

/-- Modelled from the spec: the live `User` class (not among the given
sources) carries per-connected-player runtime state: location, team and
strength.  `hasRecentLocation` mirrors `User.hasRecentLocation()`,
`team` is the user's game team identifier (`none` when unknown),
`strength` the value reported by `User.getStrength`, and `location` an
abstract coordinate token. -/
structure LiveUser where
  id : Nat
  team : Option Nat
  strength : Int
  hasRecentLocation : Bool
  location : Int
deriving DecidableEq

/-- Modelled from the spec: `User.isTeam` compares the user's team with a
given team and is false when either team is unknown, mirroring
`Factory.prototype.isTeam` (Factory.js lines 1925-1949) which implements
the same comparison for factories. -/
def userIsTeam (u : LiveUser) (otherTeam : Option Nat) : Bool :=
  match otherTeam, u.team with
  | some ot, some t => t = ot
  | _, _ => false

/-- Game configuration values consumed by the live factory and shop code.
The configuration object itself is an external collaborator; each field
embeds one accessor the sources call on it. -/
structure GameConfig where
  productionIn : Int → Int
  productionOut : Int → Int
  factoryActiveRange : Int → Int
  factoryRange : Int → Int
  shopActiveRange : Int
  shopRange : Int
  attackNewIn : Int → Int
  attackNewOut : Int → Int
  attackNewDefence : Int → Int
  coordInRange : Int → Int → Int → Bool
  shopLifetime : Nat
  shopAlertTime : Nat
  workerInterval : Nat

/-- Live factory state: the persistent model fields the sources read and
write (`team`, `level`, `defence`, in/out stock, location) together with
the three in-memory per-user arrays `_userVisibleMem`, `_userRangeMem`
and `_userPingMem` of Factory.js. -/
structure Factory where
  team : Option Nat
  level : Int
  defence : Int
  stockIn : Int
  stockOut : Int
  location : Int
  userVisibleMem : List LiveUser
  userRangeMem : List LiveUser
  userPingMem : List LiveUser
deriving DecidableEq

/-- Live shop state: the owning live user (`_user`) and the in-memory
range array `_userRangeMem` of the Shop class. -/
structure Shop where
  user : LiveUser
  userRangeMem : List LiveUser
deriving DecidableEq

/-- Membership test mirroring `array.indexOf(liveUser) >= 0`. -/
def inMemory (mem : List LiveUser) (u : LiveUser) : Bool :=
  u ∈ mem

/-- Removal of the first occurrence, mirroring
`array.splice(array.indexOf(liveUser), 1)`. -/
def removeFirst {α : Type} [DecidableEq α] : List α → α → List α
  | [], _ => []
  | x :: xs, u => if x = u then xs else x :: removeFirst xs u

/-- Shared body of the three `setIn*Memory` functions of Factory.js
(lines 803-898) and `Shop.prototype.setInRangeMemory`: read the stored
membership, return `false` without touching the array when it already
equals the requested flag, otherwise push or splice and return `true`. -/
def setInMemory (mem : List LiveUser) (u : LiveUser) (flag : Bool) :
    Bool × List LiveUser :=
  let lastState := inMemory mem u
  if lastState = flag then (false, mem)
  else if flag then (true, mem ++ [u])
  else (true, removeFirst mem u)

/-- `Factory.prototype.isInVisibilityMemory`. -/
def Factory.isInVisibilityMemory (f : Factory) (u : LiveUser) : Bool :=
  inMemory f.userVisibleMem u

/-- `Factory.prototype.setInVisibilityMemory`. -/
def Factory.setInVisibilityMemory (f : Factory) (u : LiveUser) (visible : Bool) :
    Bool × Factory :=
  let r := setInMemory f.userVisibleMem u visible
  (r.1, { f with userVisibleMem := r.2 })

/-- `Factory.prototype.isInRangeMemory`. -/
def Factory.isInRangeMemory (f : Factory) (u : LiveUser) : Bool :=
  inMemory f.userRangeMem u

/-- `Factory.prototype.setInRangeMemory`. -/
def Factory.setInRangeMemory (f : Factory) (u : LiveUser) (inRange : Bool) :
    Bool × Factory :=
  let r := setInMemory f.userRangeMem u inRange
  (r.1, { f with userRangeMem := r.2 })

/-- `Factory.prototype.isInPingMemory`. -/
def Factory.isInPingMemory (f : Factory) (u : LiveUser) : Bool :=
  inMemory f.userPingMem u

/-- `Factory.prototype.setInPingMemory` (the broadcast side effect it
triggers does not touch the memory array and is not embedded). -/
def Factory.setInPingMemory (f : Factory) (u : LiveUser) (isPinged : Bool) :
    Bool × Factory :=
  let r := setInMemory f.userPingMem u isPinged
  (r.1, { f with userPingMem := r.2 })

/-- `Shop.prototype.isInRangeMemory`. -/
def Shop.isInRangeMemory (s : Shop) (u : LiveUser) : Bool :=
  inMemory s.userRangeMem u

/-- `Shop.prototype.setInRangeMemory`. -/
def Shop.setInRangeMemory (s : Shop) (u : LiveUser) (inRange : Bool) :
    Bool × Shop :=
  let r := setInMemory s.userRangeMem u inRange
  (r.1, { s with userRangeMem := r.2 })

/-- Signed contribution of one in-range user to the conquer value:
`ally ? -userStrength : userStrength` (Factory.js line 1888). -/
def signedStrength (factoryTeam : Option Nat) (u : LiveUser) : Int :=
  if userIsTeam u factoryTeam then -u.strength else u.strength

/-- `Factory.prototype.getConquer` (Factory.js lines 1789-1907): start
from zero, subtract the defence value, then walk `_userRangeMem`; each
user with a recent location adds its signed strength and bumps the user
count, users without a recent location are skipped. -/
def Factory.getConquer (f : Factory) : Int × Nat :=
  f.userRangeMem.foldl
    (fun acc u =>
      if u.hasRecentLocation then
        (acc.1 + signedStrength f.team u, acc.2 + 1)
      else acc)
    (0 - f.defence, 0)

lemma conquer_foldl (ft : Option Nat) (l : List LiveUser) (v : Int) (c : Nat) :
    l.foldl
      (fun acc u =>
        if u.hasRecentLocation then
          (acc.1 + signedStrength ft u, acc.2 + 1)
        else acc)
      (v, c) =
    (v + ((l.filter (fun u => u.hasRecentLocation)).map (signedStrength ft)).sum,
     c + (l.filter (fun u => u.hasRecentLocation)).length) := by
  induction l generalizing v c with
  | nil => simp
  | cons x xs ih =>
    by_cases hx : x.hasRecentLocation
    · simp [List.foldl_cons, hx, ih, List.filter_cons]
      constructor
      · ring
      · omega
    · simp [List.foldl_cons, hx, ih, List.filter_cons]

/-- Claim C1: for every factory, `getConquer` returns the signed sum,
over every live user in the factory's in-range memory that has a recent
location, of that user's strength (negative for users on the factory's
team, positive otherwise) minus the factory's defence value, paired with
the number of users that contributed to the sum. -/
theorem getConquer_spec (f : Factory) :
    f.getConquer =
      (((f.userRangeMem.filter (fun u => u.hasRecentLocation)).map
          (signedStrength f.team)).sum - f.defence,
       (f.userRangeMem.filter (fun u => u.hasRecentLocation)).length) := by
  unfold Factory.getConquer
  rw [conquer_foldl]
  rw [Prod.ext_iff]
  constructor
  · simp
    ring
  · simp

/-- Outcome of `Factory.prototype.attack`: an error callback, a capture,
or the destruction of the factory. -/
inductive AttackOutcome
  | error
  | captured
  | destroyed
deriving DecidableEq

/-- `Factory.prototype.attack` (Factory.js lines 1965-2483).  The result
pairs the outcome with the persistent factory state afterwards (`none`
when the factory model was deleted by `destroy`).  The code first
gathers the factory team, the attacker's team (erroring when it is
`none`) and the conquer value (erroring when it is not above zero),
then errors when the attacker's team equals the factory's team, then
destroys the factory when its level is at most one, and otherwise
writes the attacker's team, decrements the level and maps the in, out
and defence values through the game configuration. -/
def factoryTeamEquals (f : Factory) (ut : Nat) : Bool :=
  match f.team with
  | some ft => decide (ft = ut)
  | none => false

def Factory.attack (cfg : GameConfig) (f : Factory) : Option Nat → AttackOutcome × Option Factory
  | none => (.error, some f)
  | some ut =>
    if (f.getConquer).1 ≤ 0 then (.error, some f)
    else if factoryTeamEquals f ut then (.error, some f)
    else if f.level ≤ 1 then (.destroyed, none)
    else
      (.captured, some { f with
        team := some ut,
        level := f.level - 1,
        stockIn := cfg.attackNewIn f.stockIn,
        stockOut := cfg.attackNewOut f.stockOut,
        defence := cfg.attackNewDefence f.defence })

/-- Claim C2, as stated, at one input: ownership changes to the
attacker's team exactly when the conquer value is above zero and the
attacker's team differs from the factory's team. -/
def attackClaimAt (cfg : GameConfig) (f : Factory) (ut : Nat) : Prop :=
  0 < (f.getConquer).1 ∧ f.team ≠ some ut →
    ∃ f2, f.attack cfg (some ut) = (.captured, some f2) ∧ f2.team = some ut

/-- Identity game configuration used for concrete evaluations. -/
def cfgId : GameConfig where
  productionIn := fun _ => 1
  productionOut := fun _ => 2
  factoryActiveRange := fun lv => lv + 10
  factoryRange := fun lv => lv + 20
  shopActiveRange := 11
  shopRange := 22
  attackNewIn := fun x => x
  attackNewOut := fun x => x
  attackNewDefence := fun x => x
  coordInRange := fun a b r => decide ((a - b) ^ 2 ≤ r ^ 2)
  shopLifetime := 100
  shopAlertTime := 30
  workerInterval := 7

/-- Enemy user with a recent location and strength 5, used in concrete
attack scenarios. -/
def uEnemy : LiveUser where
  id := 1
  team := some 1
  strength := 5
  hasRecentLocation := true
  location := 0

/-- Level-one factory of team 0 with the enemy user in range memory. -/
def fLevelOne : Factory where
  team := some 0
  level := 1
  defence := 0
  stockIn := 4
  stockOut := 6
  location := 0
  userVisibleMem := []
  userRangeMem := [uEnemy]
  userPingMem := []

/-- Counterexample to claim C2: for `fLevelOne` the conquer value is 5
and the attacker's team 1 differs from the factory's team 0, yet the
attack destroys the factory instead of changing its ownership. -/
theorem attack_claim_counterexample : ¬ attackClaimAt cfgId fLevelOne 1 := by
  intro h
  obtain ⟨f2, hf2, -⟩ := h (by constructor <;> decide)
  have hd : fLevelOne.attack cfgId (some 1) = (.destroyed, none) := by decide
  rw [hd] at hf2
  simp at hf2

/-- Claim C2 (amended): for an attacker with a team, ownership changes to
the attacker's team exactly when the conquer value is above zero, the
attacker's team differs from the factory's team and the factory's level
is above one; when the conquer value is above zero, the teams differ and
the level is at most one the factory is destroyed instead; and in every
other case `attack` calls back an error and the factory's team, level,
in/out stock and defence are left unchanged. -/
theorem attack_amended (cfg : GameConfig) (f : Factory) (ut : Nat) :
    (0 < (f.getConquer).1 → f.team ≠ some ut → 1 < f.level →
      f.attack cfg (some ut) =
        (.captured, some { f with
          team := some ut,
          level := f.level - 1,
          stockIn := cfg.attackNewIn f.stockIn,
          stockOut := cfg.attackNewOut f.stockOut,
          defence := cfg.attackNewDefence f.defence })) ∧
    (0 < (f.getConquer).1 → f.team ≠ some ut → f.level ≤ 1 →
      f.attack cfg (some ut) = (.destroyed, none)) ∧
    (¬ (0 < (f.getConquer).1 ∧ f.team ≠ some ut) →
      f.attack cfg (some ut) = (.error, some f)) := by
  refine ⟨?_, ?_, ?_⟩
  · intro hc ht hl
    simp only [Factory.attack]
    rw [if_neg (by omega)]
    have hteam : factoryTeamEquals f ut = false := by
      unfold factoryTeamEquals
      match hft : f.team with
      | none => rfl
      | some ft =>
        simp only [decide_eq_false_iff_not]
        intro he
        exact ht (by rw [hft, he])
    rw [hteam]
    simp only [Bool.false_eq_true, if_false]
    rw [if_neg (by omega)]
  · intro hc ht hl
    simp only [Factory.attack]
    rw [if_neg (by omega)]
    have hteam : factoryTeamEquals f ut = false := by
      unfold factoryTeamEquals
      match hft : f.team with
      | none => rfl
      | some ft =>
        simp only [decide_eq_false_iff_not]
        intro he
        exact ht (by rw [hft, he])
    rw [hteam]
    simp only [Bool.false_eq_true, if_false]
    rw [if_pos hl]
  · intro hn
    simp only [Factory.attack]
    by_cases hc : (f.getConquer).1 ≤ 0
    · rw [if_pos hc]
    · rw [if_neg hc]
      have ht : factoryTeamEquals f ut = true := by
        have hteq : f.team = some ut := by
          by_contra hne
          exact hn ⟨by omega, hne⟩
        unfold factoryTeamEquals
        rw [hteq]
        simp
      rw [if_pos ht]

/-- Level-three factory of team 0 with the enemy user in range memory. -/
def fLevelThree : Factory where
  team := some 0
  level := 3
  defence := 0
  stockIn := 4
  stockOut := 6
  location := 0
  userVisibleMem := []
  userRangeMem := [uEnemy]
  userPingMem := []

/-- Witness for the amended attack theorem at a concrete input: the
level-three factory is captured by team 1 and its level drops to two. -/
theorem attack_amended_witness :
    fLevelThree.attack cfgId (some 1) =
      (.captured, some { fLevelThree with
        team := some 1,
        level := fLevelThree.level - 1,
        stockIn := cfgId.attackNewIn fLevelThree.stockIn,
        stockOut := cfgId.attackNewOut fLevelThree.stockOut,
        defence := cfgId.attackNewDefence fLevelThree.defence }) :=
  (attack_amended cfgId fLevelThree 1).1 (by decide) (by decide) (by decide)

/-- `Factory.prototype.tick` (Factory.js lines 1371-1488): fetch the
per-tick input and output production for the factory's level and the
current in-stock; when the in-stock is below the input production, call
back successfully without changes, otherwise subtract the input
production from the in-stock and add the output production to the
out-stock. -/
def Factory.tick (cfg : GameConfig) (f : Factory) : Factory :=
  let productionIn := cfg.productionIn f.level
  let productionOut := cfg.productionOut f.level
  if f.stockIn < productionIn then f
  else { f with
    stockIn := f.stockIn - productionIn,
    stockOut := f.stockOut + productionOut }

/-- Claim C3: when the in-stock is at least the per-tick input
production, `tick` subtracts the input production from the in-stock and
adds the output production to the out-stock; when the in-stock is
smaller, `tick` leaves both stocks unchanged (and calls back
successfully, embedded as returning the state without error). -/
theorem tick_spec (cfg : GameConfig) (f : Factory) :
    (cfg.productionIn f.level ≤ f.stockIn →
      f.tick cfg = { f with
        stockIn := f.stockIn - cfg.productionIn f.level,
        stockOut := f.stockOut + cfg.productionOut f.level }) ∧
    (f.stockIn < cfg.productionIn f.level → f.tick cfg = f) := by
  constructor
  · intro h
    unfold Factory.tick
    rw [if_neg (by omega)]
  · intro h
    unfold Factory.tick
    rw [if_pos h]

/-- Witness for the tick theorem: `fLevelThree` has stock 4 and input
production 1, so a tick moves it to stock 3 in and 8 out. -/
theorem tick_spec_witness :
    fLevelThree.tick cfgId = { fLevelThree with
      stockIn := fLevelThree.stockIn - cfgId.productionIn fLevelThree.level,
      stockOut := fLevelThree.stockOut + cfgId.productionOut fLevelThree.level } :=
  (tick_spec cfgId fLevelThree).1 (by decide)

lemma mem_of_mem_removeFirst {α : Type} [DecidableEq α] {l : List α} {u a : α}
    (h : a ∈ removeFirst l u) : a ∈ l := by
  induction l with
  | nil => simp [removeFirst] at h
  | cons x xs ih =>
    by_cases hx : x = u
    · rw [removeFirst, if_pos hx] at h
      exact List.mem_cons_of_mem x h
    · rw [removeFirst, if_neg hx] at h
      rcases List.mem_cons.1 h with h1 | h1
      · exact h1 ▸ List.mem_cons_self x xs
      · exact List.mem_cons_of_mem x (ih h1)

lemma removeFirst_nodup {α : Type} [DecidableEq α] {l : List α} (u : α)
    (h : l.Nodup) : (removeFirst l u).Nodup := by
  induction l with
  | nil => simp [removeFirst]
  | cons x xs ih =>
    rcases List.nodup_cons.1 h with ⟨hx, hxs⟩
    by_cases hxu : x = u
    · rw [removeFirst, if_pos hxu]
      exact hxs
    · rw [removeFirst, if_neg hxu]
      refine List.nodup_cons.2 ⟨fun hmem => hx (mem_of_mem_removeFirst hmem), ih hxs⟩

lemma not_mem_removeFirst_self {α : Type} [DecidableEq α] {l : List α} (u : α)
    (h : l.Nodup) : u ∉ removeFirst l u := by
  induction l with
  | nil => simp [removeFirst]
  | cons x xs ih =>
    rcases List.nodup_cons.1 h with ⟨hx, hxs⟩
    by_cases hxu : x = u
    · rw [removeFirst, if_pos hxu]
      rw [hxu] at hx
      exact hx
    · rw [removeFirst, if_neg hxu]
      intro hmem
      rcases List.mem_cons.1 hmem with h1 | h1
      · exact hxu h1.symm
      · exact ih hxs h1

lemma setInMemory_spec (mem : List LiveUser) (u : LiveUser) (flag : Bool)
    (h : mem.Nodup) :
    ((setInMemory mem u flag).1 = true ↔ inMemory mem u ≠ flag) ∧
    inMemory (setInMemory mem u flag).2 u = flag ∧
    (setInMemory mem u flag).2.Nodup := by
  by_cases hm : u ∈ mem
  · cases flag
    · have hrm := not_mem_removeFirst_self u h
      refine ⟨by simp [setInMemory, inMemory, hm], ?_, ?_⟩
      · simp [setInMemory, inMemory, hm, hrm]
      · simp only [setInMemory, inMemory, hm]
        simp
        exact removeFirst_nodup u h
    · refine ⟨by simp [setInMemory, inMemory, hm], by simp [setInMemory, inMemory, hm], ?_⟩
      simp only [setInMemory, inMemory, hm]
      simpa using h
  · cases flag
    · refine ⟨by simp [setInMemory, inMemory, hm], by simp [setInMemory, inMemory, hm], ?_⟩
      simp only [setInMemory, inMemory, hm]
      simpa using h
    · refine ⟨by simp [setInMemory, inMemory, hm], by simp [setInMemory, inMemory, hm], ?_⟩
      simp only [setInMemory, inMemory, hm]
      simp [List.nodup_append, h]
      intro hx
      exact absurd hx hm

/-- Claim C5: for each of a factory's visibility, range and ping memories
and a shop's range memory, starting from a duplicate-free memory array,
the set operation returns true exactly when the stored membership
differed from the requested flag, afterwards the user's membership in
that memory equals the requested flag, and the array stays
duplicate-free (all arrays start empty in the constructors, so no live
user ever appears more than once). -/
theorem setMemory_spec (f : Factory) (s : Shop) (u : LiveUser) (flag : Bool)
    (h1 : f.userVisibleMem.Nodup) (h2 : f.userRangeMem.Nodup)
    (h3 : f.userPingMem.Nodup) (h4 : s.userRangeMem.Nodup) :
    (((f.setInVisibilityMemory u flag).1 = true ↔
        f.isInVisibilityMemory u ≠ flag) ∧
      (f.setInVisibilityMemory u flag).2.isInVisibilityMemory u = flag ∧
      (f.setInVisibilityMemory u flag).2.userVisibleMem.Nodup) ∧
    (((f.setInRangeMemory u flag).1 = true ↔ f.isInRangeMemory u ≠ flag) ∧
      (f.setInRangeMemory u flag).2.isInRangeMemory u = flag ∧
      (f.setInRangeMemory u flag).2.userRangeMem.Nodup) ∧
    (((f.setInPingMemory u flag).1 = true ↔ f.isInPingMemory u ≠ flag) ∧
      (f.setInPingMemory u flag).2.isInPingMemory u = flag ∧
      (f.setInPingMemory u flag).2.userPingMem.Nodup) ∧
    (((s.setInRangeMemory u flag).1 = true ↔ s.isInRangeMemory u ≠ flag) ∧
      (s.setInRangeMemory u flag).2.isInRangeMemory u = flag ∧
      (s.setInRangeMemory u flag).2.userRangeMem.Nodup) := by
  refine ⟨?_, ?_, ?_, ?_⟩
  · exact setInMemory_spec f.userVisibleMem u flag h1
  · exact setInMemory_spec f.userRangeMem u flag h2
  · exact setInMemory_spec f.userPingMem u flag h3
  · exact setInMemory_spec s.userRangeMem u flag h4

/-- Shop owner used in concrete scenarios: id 0, recent location. -/
def uOwner : LiveUser where
  id := 0
  team := some 0
  strength := 1
  hasRecentLocation := true
  location := 0

/-- User without a recent location, used in concrete scenarios. -/
def uNoLocation : LiveUser where
  id := 2
  team := some 1
  strength := 2
  hasRecentLocation := false
  location := 9

/-- Shop owned by `uOwner` with `uEnemy` in its range memory. -/
def sOwned : Shop where
  user := uOwner
  userRangeMem := [uEnemy]

/-- Witness for the memory-set theorem: setting `uEnemy` in the range
memory of `fLevelOne` (where it is present) to false reports a change
and removes it, while the other memories toggle as specified. -/
theorem setMemory_spec_witness :
    (((fLevelOne.setInVisibilityMemory uEnemy false).1 = true ↔
        fLevelOne.isInVisibilityMemory uEnemy ≠ false) ∧
      (fLevelOne.setInVisibilityMemory uEnemy false).2.isInVisibilityMemory uEnemy = false ∧
      (fLevelOne.setInVisibilityMemory uEnemy false).2.userVisibleMem.Nodup) ∧
    (((fLevelOne.setInRangeMemory uEnemy false).1 = true ↔
        fLevelOne.isInRangeMemory uEnemy ≠ false) ∧
      (fLevelOne.setInRangeMemory uEnemy false).2.isInRangeMemory uEnemy = false ∧
      (fLevelOne.setInRangeMemory uEnemy false).2.userRangeMem.Nodup) ∧
    (((fLevelOne.setInPingMemory uEnemy false).1 = true ↔
        fLevelOne.isInPingMemory uEnemy ≠ false) ∧
      (fLevelOne.setInPingMemory uEnemy false).2.isInPingMemory uEnemy = false ∧
      (fLevelOne.setInPingMemory uEnemy false).2.userPingMem.Nodup) ∧
    (((sOwned.setInRangeMemory uEnemy false).1 = true ↔
        sOwned.isInRangeMemory uEnemy ≠ false) ∧
      (sOwned.setInRangeMemory uEnemy false).2.isInRangeMemory uEnemy = false ∧
      (sOwned.setInRangeMemory uEnemy false).2.userRangeMem.Nodup) :=
  setMemory_spec fLevelOne sOwned uEnemy false
    (by decide) (by decide) (by decide) (by decide)

/-- Result of one call to `Shop.prototype.isUserInRange`: either the
callback runs with a boolean, or the call throws before calling back. -/
inductive ShopRangeCall
  | calledBack (inRange : Bool)
  | refErrorThrown
deriving DecidableEq

/-- `Shop.prototype.isUserInRange` (part_000 lines 384-414): a null user
calls back false, the shop owner calls back true, a user without a
recent location calls back false.  In the remaining case the code asks
`getRange` for the range and, inside that callback, evaluates
`self.getLocation()` — but unlike the sibling methods `load` and
`getRange`, `isUserInRange` never declares `const self = this`, so the
free identifier `self` is unbound and the lookup throws a
ReferenceError before any callback runs; that path is embedded as
`refErrorThrown`. -/
def Shop.isUserInRange (s : Shop) : Option LiveUser → ShopRangeCall
  | none => .calledBack false
  | some u =>
    if s.user.id = u.id then .calledBack true
    else if ¬ u.hasRecentLocation then .calledBack false
    else .refErrorThrown

/-- Claim C7, behaviour of `Shop.isUserInRange` at concrete inputs: the
first two cases of the claim hold (owner calls back true, null user and
users without a recent location call back false), but a non-owner user
with a recent location makes the code throw a ReferenceError on the
undeclared identifier `self` instead of calling back the distance
comparison. -/
theorem shop_isUserInRange_bug :
    sOwned.isUserInRange (some uOwner) = .calledBack true ∧
    sOwned.isUserInRange none = .calledBack false ∧
    sOwned.isUserInRange (some uNoLocation) = .calledBack false ∧
    sOwned.isUserInRange (some uEnemy) = .refErrorThrown := by
  refine ⟨rfl, rfl, rfl, rfl⟩

/-- `Factory.prototype.getRange` (Factory.js lines 1503-1561): the
active range from the game configuration when the queried live user is
in the factory's range memory, the global range otherwise (both are
functions of the factory level). -/
def Factory.getRange (cfg : GameConfig) (f : Factory)
    (liveUser : Option LiveUser) : Int :=
  if (match liveUser with | some u => f.isInRangeMemory u | none => false) then
    cfg.factoryActiveRange f.level
  else cfg.factoryRange f.level

/-- `Shop.prototype.getRange` (part_000 lines 316-334): the active shop
range from the game configuration when the queried live user is in the
shop's range memory, the global shop range otherwise. -/
def Shop.getRange (cfg : GameConfig) (s : Shop)
    (liveUser : Option LiveUser) : Int :=
  if (match liveUser with | some u => s.isInRangeMemory u | none => false) then
    cfg.shopActiveRange
  else cfg.shopRange

/-- Claim C8: for factories and shops, `getRange` returns the active
range from the game configuration when the queried live user is in the
object's range memory and the global range otherwise. -/
theorem getRange_spec (cfg : GameConfig) (f : Factory) (s : Shop)
    (u : LiveUser) :
    (f.isInRangeMemory u = true →
      f.getRange cfg (some u) = cfg.factoryActiveRange f.level) ∧
    (f.isInRangeMemory u = false →
      f.getRange cfg (some u) = cfg.factoryRange f.level) ∧
    (s.isInRangeMemory u = true →
      s.getRange cfg (some u) = cfg.shopActiveRange) ∧
    (s.isInRangeMemory u = false →
      s.getRange cfg (some u) = cfg.shopRange) := by
  refine ⟨?_, ?_, ?_, ?_⟩ <;> intro h
  · simp [Factory.getRange, h]
  · simp [Factory.getRange, h]
  · simp [Shop.getRange, h]
  · simp [Shop.getRange, h]

/-- Witness for the range theorem: `uEnemy` is in the range memories of
`fLevelOne` and `sOwned`, so both report their active ranges. -/
theorem getRange_spec_witness :
    fLevelOne.getRange cfgId (some uEnemy) =
        cfgId.factoryActiveRange fLevelOne.level ∧
    sOwned.getRange cfgId (some uEnemy) = cfgId.shopActiveRange :=
  ⟨(getRange_spec cfgId fLevelOne sOwned uEnemy).1 (by decide),
   (getRange_spec cfgId fLevelOne sOwned uEnemy).2.2.1 (by decide)⟩

/-- Inbound SHOP_BUY_OUT packet as the handler reads it: whether the
keys it tests for presence exist, the parsed numeric amount, and the
raw value of the `all` key.  `hasShopKey` and `hasAmountKey` mirror
`packet.hasOwnProperty('shop')` and `packet.hasOwnProperty('amount')`;
`outAmount` is the result of `parseInt(packet.outAmount)` with `none`
standing for NaN (the key missing or non-numeric); `all` is `none`
when the `all` key is absent. -/
structure BuyOutPacket where
  hasShopKey : Bool
  hasAmountKey : Bool
  outAmount : Option Int
  all : Option Bool
deriving DecidableEq

/-- Message the buy-out handler sends on the socket, one constructor per
send site. -/
inductive BuyOutMsg
  | malformedPacket
  | notAuthenticated
  | shopNotFound
  | serverError
  | notEnoughGoods
  | amountBelowZero
  | amountZero
  | sold (goods money : Int)
  | soldNaN
deriving DecidableEq

/-- Whether a buy-out message is sent with `error: true` (the
`callbackError` message and every explicit error response). -/
def BuyOutMsg.isError : BuyOutMsg → Bool
  | .sold _ _ => false
  | .soldNaN => false
  | _ => true

/-- Outcome of one buy-out request: the message sent to the socket and
the selling user's out and money balances afterwards (`none` embeds a
balance that was overwritten with NaN). -/
structure BuyOutOutcome where
  msg : BuyOutMsg
  out : Option Int
  money : Option Int
deriving DecidableEq

/-- Amount of out goods the handler decides to sell: the user's whole
current out balance when `packet.all === true`, otherwise the parsed
`packet.outAmount` (ShopBuyOutHandler.js lines 186-193). -/
def requestedOut (pkt : BuyOutPacket) (outCurrent : Int) : Option Int :=
  if pkt.all = some true then some outCurrent else pkt.outAmount

/-- Amount checks and balance updates of the buy-out handler
(ShopBuyOutHandler.js lines 186-272), split out so that the `some`/NaN
cases reduce by their equations. -/
def buyOutAmountStage (price : ℚ) (outCurrent moneyCurrent : Int) :
    Option Int → BuyOutOutcome
  | some n =>
    if outCurrent < n then
      ⟨.notEnoughGoods, some outCurrent, some moneyCurrent⟩
    else if n < 0 then
      ⟨.amountBelowZero, some outCurrent, some moneyCurrent⟩
    else if n = 0 then
      ⟨.amountZero, some outCurrent, some moneyCurrent⟩
    else
      ⟨.sold n (round ((n : ℚ) * price)),
       some (outCurrent - n),
       some (moneyCurrent + round ((n : ℚ) * price))⟩
  | none => ⟨.soldNaN, none, none⟩

/-- `ShopBuyOutHandler.prototype.handler` (ShopBuyOutHandler.js lines
67-295).  Ordered as in the code: the malformed-packet check (missing
`shop` key, or neither an `amount` key nor an `all` key), the session
authentication check, the shop-token search, the in-range check, then
the amount checks (above the current out balance, below zero, zero) and
finally the balance updates: the amount is subtracted from the out
balance and `Math.round(amount * price)` is added to the money balance.
`shopFound` embeds whether some live shop's token equals the packet's
shop token, `inRange` the result of `Shop.isUserInRange` for the
selling user, and `price` the shop's out buy price for that game user.
A NaN amount (`requestedOut = none`) passes every comparison check —
each JavaScript comparison with NaN is false — and overwrites both
balances with NaN. -/
def shopBuyOut (pkt : BuyOutPacket) (sessionValid shopFound inRange : Bool)
    (price : ℚ) (outCurrent moneyCurrent : Int) : BuyOutOutcome :=
  if ¬ pkt.hasShopKey ∨ (¬ pkt.hasAmountKey ∧ pkt.all = none) then
    ⟨.malformedPacket, some outCurrent, some moneyCurrent⟩
  else if ¬ sessionValid then
    ⟨.notAuthenticated, some outCurrent, some moneyCurrent⟩
  else if ¬ shopFound then
    ⟨.shopNotFound, some outCurrent, some moneyCurrent⟩
  else if ¬ inRange then
    ⟨.serverError, some outCurrent, some moneyCurrent⟩
  else
    buyOutAmountStage price outCurrent moneyCurrent
      (requestedOut pkt outCurrent)

/-- Claim C4: for an authenticated user in range of a found shop selling
an amount N with 0 < N and N at most the current out balance, the
handler subtracts N from the out balance and adds round(N times the
shop's out buy price) to the money balance; when the packet's `all`
flag is true, N is the entire current out balance. -/
theorem shopBuyOut_sell_spec (pkt : BuyOutPacket)
    (price : ℚ) (outCurrent moneyCurrent n : Int)
    (hshop : pkt.hasShopKey = true)
    (hkeys : pkt.hasAmountKey = true ∨ pkt.all ≠ none)
    (hn : requestedOut pkt outCurrent = some n)
    (hpos : 0 < n) (hle : n ≤ outCurrent) :
    shopBuyOut pkt true true true price outCurrent moneyCurrent =
      ⟨.sold n (round ((n : ℚ) * price)),
       some (outCurrent - n),
       some (moneyCurrent + round ((n : ℚ) * price))⟩ := by
  have hmal : ¬ (¬ pkt.hasShopKey = true ∨
      (¬ pkt.hasAmountKey = true ∧ pkt.all = none)) := by
    simp only [hshop, not_true, false_or, not_and]
    intro h
    rcases hkeys with hk | hk
    · exact absurd hk h
    · exact hk
  unfold shopBuyOut
  rw [if_neg hmal, if_neg (by simp), if_neg (by simp), if_neg (by simp), hn]
  simp only [buyOutAmountStage]
  rw [if_neg (by omega), if_neg (by omega), if_neg (by omega)]

/-- Packet selling 3 goods, used as a concrete witness input. -/
def pktSellThree : BuyOutPacket where
  hasShopKey := true
  hasAmountKey := true
  outAmount := some 3
  all := none

/-- Witness for the sell theorem: selling 3 goods at price 3/2 from a
balance of 5 out and 100 money yields 2 out and 105 money (round(4.5)
is 5). -/
theorem shopBuyOut_sell_spec_witness :
    shopBuyOut pktSellThree true true true ((3 : ℚ) / 2) 5 100 =
      ⟨.sold 3 (round ((3 : ℚ) * ((3 : ℚ) / 2))),
       some (5 - 3), some (100 + round ((3 : ℚ) * ((3 : ℚ) / 2)))⟩ :=
  shopBuyOut_sell_spec pktSellThree ((3 : ℚ) / 2) 5 100 3
    (by decide) (Or.inl (by decide)) (by decide) (by decide) (by decide)

/-- Claim C9: the buy-out handler leaves the selling user's out and
money balances unchanged and sends an error message whenever the
requested amount is zero, negative or greater than the user's current
out balance, whenever the packet lacks a shop token or lacks both an
amount and an `all` flag, and whenever the socket session is not
authenticated. -/
theorem shopBuyOut_error_spec (pkt : BuyOutPacket)
    (sessionValid shopFound inRange : Bool)
    (price : ℚ) (outCurrent moneyCurrent : Int)
    (hcase : sessionValid = false ∨ pkt.hasShopKey = false ∨
      (pkt.hasAmountKey = false ∧ pkt.all = none) ∨
      (∃ n, requestedOut pkt outCurrent = some n ∧
        (n ≤ 0 ∨ outCurrent < n))) :
    (shopBuyOut pkt sessionValid shopFound inRange price outCurrent
        moneyCurrent).msg.isError = true ∧
    (shopBuyOut pkt sessionValid shopFound inRange price outCurrent
        moneyCurrent).out = some outCurrent ∧
    (shopBuyOut pkt sessionValid shopFound inRange price outCurrent
        moneyCurrent).money = some moneyCurrent := by
  unfold shopBuyOut
  by_cases h1 : ¬ pkt.hasShopKey ∨ (¬ pkt.hasAmountKey ∧ pkt.all = none)
  · rw [if_pos h1]
    exact ⟨rfl, rfl, rfl⟩
  · rw [if_neg h1]
    by_cases h2 : sessionValid = true
    · rw [if_neg (by simp [h2])]
      by_cases h3 : shopFound = true
      · rw [if_neg (by simp [h3])]
        by_cases h4 : inRange = true
        · rw [if_neg (by simp [h4])]
          have hreq : ∃ n, requestedOut pkt outCurrent = some n ∧
              (n ≤ 0 ∨ outCurrent < n) := by
            rcases hcase with hc | hc | hc | hc
            · rw [hc] at h2
              simp at h2
            · exact absurd (Or.inl (by simp [hc])) h1
            · exact absurd (Or.inr (by simp [hc.1, hc.2])) h1
            · exact hc
          obtain ⟨n, hn, hbad⟩ := hreq
          rw [hn]
          simp only [buyOutAmountStage]
          by_cases h5 : outCurrent < n
          · rw [if_pos h5]
            exact ⟨rfl, rfl, rfl⟩
          · rw [if_neg h5]
            have hneg : n ≤ 0 := by omega
            by_cases h6 : n < 0
            · rw [if_pos h6]
              exact ⟨rfl, rfl, rfl⟩
            · rw [if_neg h6, if_pos (by omega)]
              exact ⟨rfl, rfl, rfl⟩
        · rw [if_pos (by simp [Bool.not_eq_true] at h4; simp [h4])]
          exact ⟨rfl, rfl, rfl⟩
      · rw [if_pos (by simp [Bool.not_eq_true] at h3; simp [h3])]
        exact ⟨rfl, rfl, rfl⟩
    · rw [if_pos (by simp [Bool.not_eq_true] at h2; simp [h2])]
      exact ⟨rfl, rfl, rfl⟩

/-- Witness for the error theorem: an unauthenticated session keeps the
balances 5 and 100 and yields an error message. -/
theorem shopBuyOut_error_spec_witness :
    (shopBuyOut pktSellThree false true true ((3 : ℚ) / 2) 5 100).msg.isError
        = true ∧
    (shopBuyOut pktSellThree false true true ((3 : ℚ) / 2) 5 100).out
        = some 5 ∧
    (shopBuyOut pktSellThree false true true ((3 : ℚ) / 2) 5 100).money
        = some 100 :=
  shopBuyOut_error_spec pktSellThree false true true ((3 : ℚ) / 2) 5 100
    (Or.inl rfl)

/-- `Factory.prototype.isUserInRange` (Factory.js lines 1309-1364): a
null user or a user without a recent location is not in range; otherwise
the factory's location is compared with the user's location against the
range `Factory.getRange` reports for that user, via the external
`Coordinate.isInRange` embedded as `cfg.coordInRange`. -/
def Factory.isUserInRange (cfg : GameConfig) (f : Factory) :
    Option LiveUser → Bool
  | none => false
  | some u =>
    if ¬ u.hasRecentLocation then false
    else cfg.coordInRange f.location u.location (f.getRange cfg (some u))

/-- Per-game user state flags read from `gameModel.getUserState`. -/
structure UserState where
  player : Bool
  special : Bool
  spectator : Bool
deriving DecidableEq

/-- Result object of `Factory.prototype.getVisibilityState`. -/
structure VisibilityState where
  ally : Bool
  visible : Bool
  inRange : Bool
  pinged : Bool
deriving DecidableEq

/-- Equality of two optional teams, false when either is unknown
(the ally test of Factory.js line 1720). -/
def teamsMatch : Option Nat → Option Nat → Bool
  | some a, some b => decide (a = b)
  | _, _ => false

/-- `Factory.prototype.getVisibilityState` (Factory.js lines 1577-1765).
All four flags start false.  A null live user, or a null factory model
(`factoryModelValid = false`), calls the result back unchanged.
Otherwise: a spectator or a finished game (stage at least 2) makes the
factory visible with `inRange` forced false; a user in the ping memory
makes it visible and pinged; a player whose team matches the factory's
non-null team makes it ally and visible; and a player or special user
with a recent location in a running game gets the `isUserInRange`
result as `inRange`, which also makes the factory visible when true.
`userTeam` is the game user's team (`none` when the game user is
missing or has no team). -/
def Factory.getVisibilityState (cfg : GameConfig) (f : Factory)
    (factoryModelValid : Bool) (gameStage : Int) (userState : UserState)
    (userTeam : Option Nat) : Option LiveUser → VisibilityState
  | none => ⟨false, false, false, false⟩
  | some u =>
    if ¬ factoryModelValid then ⟨false, false, false, false⟩
    else
      let visibleSpectator := userState.spectator || decide (2 ≤ gameStage)
      let pinged := f.isInPingMemory u
      let visibleAfterPing := visibleSpectator || pinged
      let ally := userState.player && teamsMatch f.team userTeam
      let visibleAfterAlly := visibleAfterPing || ally
      let rangeChecked := (userState.player || userState.special) &&
        u.hasRecentLocation && decide (gameStage < 2)
      let inRange := rangeChecked && f.isUserInRange cfg (some u)
      ⟨ally, visibleAfterAlly || inRange, inRange, pinged⟩

lemma visible_or_helper (a b c d : Bool)
    (h : a = true ∨ b = true ∨ c = true) : (((d || c) || a) || b) = true := by
  rcases h with h | h | h <;> simp [h]

/-- Claim C10: in every result of `getVisibilityState`, the visible flag
is true whenever any of the ally, inRange or pinged flags is true, and
for a null live user or a missing factory model all four flags are
false. -/
theorem getVisibilityState_spec (cfg : GameConfig) (f : Factory)
    (factoryModelValid : Bool) (gameStage : Int) (userState : UserState)
    (userTeam : Option Nat) (liveUser : Option LiveUser) :
    (((f.getVisibilityState cfg factoryModelValid gameStage userState
          userTeam liveUser).ally = true ∨
      (f.getVisibilityState cfg factoryModelValid gameStage userState
          userTeam liveUser).inRange = true ∨
      (f.getVisibilityState cfg factoryModelValid gameStage userState
          userTeam liveUser).pinged = true) →
      (f.getVisibilityState cfg factoryModelValid gameStage userState
          userTeam liveUser).visible = true) ∧
    (liveUser = none →
      f.getVisibilityState cfg factoryModelValid gameStage userState
          userTeam liveUser = ⟨false, false, false, false⟩) ∧
    (factoryModelValid = false →
      f.getVisibilityState cfg factoryModelValid gameStage userState
          userTeam liveUser = ⟨false, false, false, false⟩) := by
  rcases liveUser with _ | u
  · refine ⟨?_, fun _ => rfl, fun _ => rfl⟩
    intro h
    simp [Factory.getVisibilityState] at h
  · cases hv : factoryModelValid
    · refine ⟨?_, by simp, fun _ => ?_⟩
      · intro h
        simp [Factory.getVisibilityState] at h
      · simp [Factory.getVisibilityState]
    · refine ⟨?_, by simp, by simp⟩
      intro h
      exact visible_or_helper
        (userState.player && teamsMatch f.team userTeam)
        (((userState.player || userState.special) && u.hasRecentLocation &&
            decide (gameStage < 2)) && f.isUserInRange cfg (some u))
        (f.isInPingMemory u)
        (userState.spectator || decide (2 ≤ gameStage)) h

/-- Witness for the visibility-state theorem at a concrete input: a
pinged non-ally user sees the factory. -/
theorem getVisibilityState_spec_witness :
    (fLevelOne.getVisibilityState cfgId true 1 ⟨true, false, false⟩
        (some 1) (some uEnemy)).visible = true :=
  (getVisibilityState_spec cfgId fLevelOne true 1 ⟨true, false, false⟩
      (some 1) (some uEnemy)).1 (Or.inr (Or.inl (by decide)))

/-- Alert time used by `Shop.prototype.load`:
`Math.min(gameConfig.shop.shopAlertTime, lifeTime)` (part_000 line
203). -/
def shopAlert (cfg : GameConfig) : Nat :=
  min cfg.shopAlertTime cfg.shopLifetime

/-- State of the scheduled shop handover of `Shop.prototype.load`
(part_000 lines 155-292): the absolute time of the pending timer, the
number of preparation attempts already made, the shop manager's shop
list (by shop id), whether the owner was told their dealer ability is
gone, and whether the timer chain has terminated. -/
structure HandoverState where
  time : Nat
  attempt : Nat
  shops : List Nat
  dealerLostMsgSent : Bool
  done : Bool
deriving DecidableEq

/-- State right after `load`: the first `functionPrepareTransfer` fires
`lifeTime - alertTime` after loading. -/
def handoverInit (cfg : GameConfig) (shops0 : List Nat) : HandoverState :=
  ⟨cfg.shopLifetime - shopAlert cfg, 0, shops0, false, false⟩

/-- Timed model of the handover chain scheduled by `Shop.prototype.load`,
run with explicit fuel.  Each step fires the pending timer: when the
owner's team model is invalid the preparation step returns and nothing
further is scheduled; when the oracle (the pair of
`ShopManager.findNewShopUser` and `getTeamPreferredShopCountDelta`
results for that attempt) reports no replacement user and a
non-negative delta, the preparation step is rescheduled
`workerInterval` later; otherwise `functionTransfer` runs `alertTime`
later, splicing the shop out of the manager's shop list and sending the
owner the dealer-lost notification. -/
def handoverRun (cfg : GameConfig) (oracle : Nat → Option Nat × Int)
    (teamValid : Bool) (shopId : Nat) : Nat → HandoverState → HandoverState
  | 0, st => st
  | fuel + 1, st =>
    if st.done then st
    else if ¬ teamValid then { st with done := true }
    else if (oracle st.attempt).1 = none ∧ 0 ≤ (oracle st.attempt).2 then
      handoverRun cfg oracle teamValid shopId fuel
        { st with time := st.time + cfg.workerInterval,
                  attempt := st.attempt + 1 }
    else
      { st with time := st.time + shopAlert cfg,
                shops := removeFirst st.shops shopId,
                dealerLostMsgSent := true,
                done := true }

lemma handoverRun_aux (cfg : GameConfig) (oracle : Nat → Option Nat × Int)
    (shopId : Nat) (k : Nat) :
    ∀ (fuel : Nat) (st : HandoverState), st.done = false →
    (∀ j, j < k → (oracle (st.attempt + j)).1 = none ∧
        0 ≤ (oracle (st.attempt + j)).2) →
    ¬ ((oracle (st.attempt + k)).1 = none ∧
        0 ≤ (oracle (st.attempt + k)).2) →
    k < fuel →
    handoverRun cfg oracle true shopId fuel st =
      ⟨st.time + k * cfg.workerInterval + shopAlert cfg, st.attempt + k,
       removeFirst st.shops shopId, true, true⟩ := by
  induction k with
  | zero =>
    intro fuel st hdone hretry hstop hfuel
    match fuel, hfuel with
    | f + 1, _ =>
      rw [handoverRun]
      rw [if_neg (by simp [hdone])]
      rw [if_neg (by simp)]
      rw [if_neg (by simpa using hstop)]
      obtain ⟨t, a, sh, m, d⟩ := st
      simp
  | succ k ih =>
    intro fuel st hdone hretry hstop hfuel
    match fuel, hfuel with
    | f + 1, _ =>
      rw [handoverRun]
      rw [if_neg (by simp [hdone])]
      rw [if_neg (by simp)]
      rw [if_pos (by simpa using hretry 0 (by omega))]
      have hres := ih f
        { st with time := st.time + cfg.workerInterval,
                  attempt := st.attempt + 1 }
        (by simp [hdone])
        (by intro j hj
            have := hretry (j + 1) (by omega)
            simpa [Nat.add_assoc, Nat.add_comm 1 j] using this)
        (by simpa [Nat.add_assoc, Nat.add_comm 1 k] using hstop)
        (by omega)
      rw [hres]
      obtain ⟨t, a, sh, m, d⟩ := st
      simp
      constructor
      · ring
      · omega

/-- Claim C6: for a shop whose owner's team model stays valid, `load`
schedules the handover so that the first preparation step fires
`lifeTime - min(shopAlertTime, lifeTime)` after loading; while the
oracle reports no replacement user and a non-negative preferred shop
count delta, the preparation step is retried every `workerInterval`;
and at the first attempt `k` where a replacement user is found or the
delta is negative, the shop is removed from the shop manager's shop
list `min(shopAlertTime, lifeTime)` later (that is, at
`(lifeTime - alertTime) + k * workerInterval + alertTime` after
loading) and the owner is notified of losing dealer status. -/
theorem shop_handover_spec (cfg : GameConfig)
    (oracle : Nat → Option Nat × Int) (shopId : Nat) (shops0 : List Nat)
    (k fuel : Nat)
    (hretry : ∀ j, j < k → (oracle j).1 = none ∧ 0 ≤ (oracle j).2)
    (hstop : ¬ ((oracle k).1 = none ∧ 0 ≤ (oracle k).2))
    (hfuel : k < fuel) :
    (handoverInit cfg shops0).time = cfg.shopLifetime - shopAlert cfg ∧
    handoverRun cfg oracle true shopId fuel (handoverInit cfg shops0) =
      ⟨(cfg.shopLifetime - shopAlert cfg) + k * cfg.workerInterval +
         shopAlert cfg,
       k, removeFirst shops0 shopId, true, true⟩ := by
  refine ⟨rfl, ?_⟩
  have h := handoverRun_aux cfg oracle shopId k fuel
    (handoverInit cfg shops0) rfl
    (by intro j hj; simpa [handoverInit] using hretry j hj)
    (by simpa [handoverInit] using hstop)
    hfuel
  rw [h]
  simp [handoverInit]

/-- Oracle for the handover witness: no replacement user for the first
two attempts, then user 5 is found. -/
def oracleW : Nat → Option Nat × Int :=
  fun j => if j < 2 then (none, 0) else (some 5, 0)

/-- Witness for the handover theorem: with lifetime 100, alert time 30
and worker interval 7, two failed preparation attempts followed by a
successful one remove shop 9 at time 70 + 2 * 7 + 30 = 114. -/
theorem shop_handover_spec_witness :
    (handoverInit cfgId [4, 9]).time = cfgId.shopLifetime - shopAlert cfgId ∧
    handoverRun cfgId oracleW true 9 3 (handoverInit cfgId [4, 9]) =
      ⟨(cfgId.shopLifetime - shopAlert cfgId) + 2 * cfgId.workerInterval +
         shopAlert cfgId,
       2, removeFirst [4, 9] 9, true, true⟩ :=
  shop_handover_spec cfgId oracleW 9 [4, 9] 2 3
    (by intro j hj
        have hj2 : j < 2 := hj
        simp [oracleW, hj2])
    (by decide) (by omega)
